import Mathlib

/-!
Shallow embedding of `src/main.rs` of the geotif-image-processing tool.

The program decodes a single-band TIFF raster (optionally extracted from a
zip archive), maps each pixel index to a longitude/latitude pair with `lerp`,
filters out non-positive samples, optionally buckets the surviving points into
a regular lon/lat grid accumulated in a `HashMap`, and writes a three-column
table (`lon`, `lat`, `value`) of 32-bit floats.

Modelling conventions:
* `f64` arithmetic on coordinates is idealised as exact arithmetic on `ℚ`
  (all coordinate computations in the program are field operations on small
  values); the transcendental weight `f64::cos`/`to_radians` is idealised as
  `Real.cos`, so accumulated cell values live in `ℝ`.
* The final `as f32` narrowing of each column is idealised as the identity on
  the value (the claims under study concern which quantity lands in which
  column and exact sums, not rounding error).
* Rust's `HashMap` iterates its entries in an order determined by a per-process
  random hash seed.  `into_values` is therefore modelled by an explicit key
  order `hashOrder` applied to the insertion-ordered association list that
  models the map contents; a run of the program corresponds to some
  `hashOrder` that is a permutation of the stored keys.
* `(lon / group).floor() as i32` is modelled as `⌊lon / group⌋ : ℤ` (the `i32`
  saturation of the cast is never reached for the geographic ranges involved;
  no theorem below depends on it).  Note that for `group = 0` Rust's float
  division yields an infinity while `ℚ` division by zero yields `0`; no
  theorem below inspects the table contents at `group = 0`.
-/

namespace Geotif

/-- `fn lerp(v, domain, range)` (main.rs:144-146):
`(v - domain.0) / (domain.1 - domain.0) * (range.1 - range.0) + range.0`. -/
def lerp (v : ℚ) (domain : ℚ × ℚ) (range : ℚ × ℚ) : ℚ :=
  (v - domain.1) / (domain.2 - domain.1) * (range.2 - range.1) + range.1

/-- `tiff::decoder::DecodingResult`: the runtime-tagged pixel buffer returned
by the external decoder.  Unsigned payloads are modelled as `ℕ`, signed as
`ℤ`, floating-point as idealised `ℚ` (the program never reads any payload
other than the `I32` one). -/
inductive DecodingResult where
  | U8 (samples : List ℕ)
  | U16 (samples : List ℕ)
  | U32 (samples : List ℕ)
  | U64 (samples : List ℕ)
  | F32 (samples : List ℚ)
  | F64 (samples : List ℚ)
  | I8 (samples : List ℤ)
  | I16 (samples : List ℤ)
  | I32 (samples : List ℤ)
  | I64 (samples : List ℤ)

/-- The `match` on the image variant used to build the error message
(main.rs:100-111). -/
def tagName : DecodingResult → String
  | .U8 _ => "U8"
  | .U16 _ => "U16"
  | .U32 _ => "U32"
  | .U64 _ => "U64"
  | .F32 _ => "F32"
  | .F64 _ => "F64"
  | .I8 _ => "I8"
  | .I16 _ => "I16"
  | .I32 _ => "I32"
  | .I64 _ => "I64"

/-- The filter closure `|(_, value)| *value > 0` (main.rs:58). -/
def keepPixel (value : ℤ) : Bool := value > 0

/-- The iterator chain of `process_one` (main.rs:55-65):
`enumerate → filter(value > 0) → map(idx ↦ (x, y, value)) → map(lerp both axes)`,
producing the `Vec<(f64, f64, f64)>` of `(lon, lat, value)` tuples. -/
def ungroupedData (width height : ℕ) (pixels : List ℤ) : List (ℚ × ℚ × ℚ) :=
  ((pixels.enum.filter (fun p => keepPixel p.2)).map
      (fun p => (p.1 % width, p.1 / width, p.2))).map
    (fun t => (lerp (t.1 : ℚ) (0, (width : ℚ)) (-180, 180),
               lerp (t.2.1 : ℚ) (0, (height : ℚ)) (85, -85),
               (t.2.2 : ℚ)))

/-- Contents of the `HashMap<(i32, i32), (f64, f64, V)>` used for grouping,
modelled as an association list in key-insertion order. -/
abbrev CellMap (V : Type) := List ((ℤ × ℤ) × ℚ × ℚ × V)

/-- Key lookup in the modelled map. -/
def lookupKey {V : Type} (k : ℤ × ℤ) : CellMap V → Option (ℚ × ℚ × V)
  | [] => none
  | (k', v) :: rest => if k' = k then some v else lookupKey k rest

/-- `grouped.entry(k).or_insert((groupedLon, groupedLat, 0.0))` followed by
`entry.2 += contrib` (main.rs:74-81): a fresh cell starts at `0` and receives
the contribution; an existing cell keeps its anchors and adds the
contribution. -/
def addToCell {V : Type} [Add V] [Zero V] (k : ℤ × ℤ) (anchor : ℚ × ℚ)
    (contrib : V) : CellMap V → CellMap V
  | [] => [(k, (anchor.1, anchor.2, 0 + contrib))]
  | (k', v) :: rest =>
      if k' = k then (k', (v.1, v.2.1, v.2.2 + contrib)) :: rest
      else (k', v) :: addToCell k anchor contrib rest

/-- One iteration of the grouping loop body (main.rs:69-81), generic in the
per-point contribution `c` so that the key/anchor skeleton can be reasoned
about independently of the `ℝ`-valued weights. -/
def groupStep {V : Type} [Add V] [Zero V] (c : ℚ × ℚ × ℚ → V) (group : ℚ)
    (m : CellMap V) (o : ℚ × ℚ × ℚ) : CellMap V :=
  let lonIndex : ℤ := ⌊o.1 / group⌋
  let latIndex : ℤ := ⌊o.2.1 / group⌋
  let groupedLon : ℚ := (lonIndex : ℚ) * group
  let groupedLat : ℚ := (latIndex : ℚ) * group
  addToCell (lonIndex, latIndex) (groupedLon, groupedLat) (c o) m

/-- The whole grouping loop: fold `groupStep` over the data, starting from the
empty map (main.rs:68-81). -/
def groupFold {V : Type} [Add V] [Zero V] (c : ℚ × ℚ × ℚ → V) (group : ℚ)
    (data : List (ℚ × ℚ × ℚ)) : CellMap V :=
  data.foldl (groupStep c group) []

/-- `let scaled = *value * lat.to_radians().cos()` (main.rs:79):
the one contribution policy the code implements.  `f64::to_radians` is
`self * (π / 180)`. -/
noncomputable def codeContribution (o : ℚ × ℚ × ℚ) : ℝ :=
  (o.2.2 : ℝ) * Real.cos ((o.2.1 : ℝ) * (Real.pi / 180))

/-- The grouping map actually built by the code (main.rs:68-81). -/
noncomputable def groupData (group : ℚ) (data : List (ℚ × ℚ × ℚ)) : CellMap ℝ :=
  groupFold codeContribution group data

/-- `grouped.into_values().collect()` (main.rs:82): the map's values read out
in the hash-seed-dependent iteration order `order`. -/
def reorder {V : Type} (order : List (ℤ × ℤ)) (m : CellMap V) :
    List (ℚ × ℚ × V) :=
  order.filterMap (fun k => lookupKey k m)

/-- The three-column output table (the `RecordBatch` of main.rs:90-94). -/
structure Table (α : Type) where
  lon : List ℚ
  lat : List ℚ
  value : List α
  deriving DecidableEq

/-- Column construction (main.rs:85-94).  Note the code takes `r.1` (the
latitude component of the `(lon, lat, value)` tuple) for the `lon` column and
`r.0` (the longitude component) for the `lat` column. -/
def buildTable {α : Type} (data : List (ℚ × ℚ × α)) : Table α where
  lon := data.map (fun r => r.2.1)
  lat := data.map (fun r => r.1)
  value := data.map (fun r => r.2.2)

/-- The pixels surviving the filter, with their flat indices: the result of
`enumerate().filter(|(_, value)| *value > 0)` (main.rs:55-58). -/
def survivors (pixels : List ℤ) : List (ℕ × ℤ) :=
  pixels.enum.filter (fun p => keepPixel p.2)

/-- Whether the decoded image is of the one supported pixel type
(the `if let DecodingResult::I32(pixels)` test of main.rs:48). -/
def isI32 : DecodingResult → Bool
  | .I32 _ => true
  | _ => false

/-- Sum of the `value` components of a list of `(lon, lat, value)` tuples. -/
def sumValues {V : Type} [AddCommMonoid V] (rows : List (ℚ × ℚ × V)) : V :=
  (rows.map (fun r => r.2.2)).sum

/-- Sum of the accumulated values of all cells of a modelled `HashMap`. -/
def cellSum {V : Type} [AddCommMonoid V] (m : CellMap V) : V :=
  (m.map (fun e => e.2.2.2)).sum

/-- Arrow numeric column types relevant to the schema discussion. -/
inductive ArrowType where
  | float32
  | int32
  deriving DecidableEq

/-- The schema of the written table (main.rs:85-94): both on the grouped and
on the ungrouped path the code constructs `Float32Array`s for all three
columns. -/
def outputSchema (grouped : Bool) : List (String × ArrowType) :=
  [("lon", ArrowType.float32), ("lat", ArrowType.float32),
   ("value", ArrowType.float32)]

/-- The compute core of `process_one` (main.rs:48-98): pattern-match on the
decoded pixel type; on `I32`, filter/project the pixels, optionally group
them, and build the table; on any other variant, fail with the message of
main.rs:113.  `hashOrder` models the per-run `HashMap` iteration order. -/
noncomputable def processOne (image : DecodingResult) (width height : ℕ)
    (group : Option ℚ) (hashOrder : List (ℤ × ℤ)) : Except String (Table ℝ) :=
  match image with
  | .I32 pixels =>
      let data := ungroupedData width height pixels
      match group with
      | some g => .ok (buildTable (reorder hashOrder (groupData g data)))
      | none => .ok (buildTable (data.map fun r => (r.1, r.2.1, (r.2.2 : ℝ))))
  | other =>
      .error ("Unexpected image type. Expected I32 but got " ++ tagName other)

/-- `Result::is_ok`. -/
def resultIsOk {ε α : Type} : Except ε α → Bool
  | .ok _ => true
  | .error _ => false

/-- `str::ends_with`, modelled on the character sequence of the string. -/
def strEndsWith (s suffix : String) : Bool :=
  suffix.data.isSuffixOf s.data

/-- The zip member filter closure `|n| n.ends_with(".tif") || n.ends_with(".tiff")`
(main.rs:127). -/
def isRasterName (n : String) : Bool :=
  strEndsWith n ".tif" || strEndsWith n ".tiff"

/-- `fn load_tif_contents` (main.rs:120-142).  The filesystem is abstracted:
`ext` is `path.extension()`, `fileBytes` the bytes of the file at the path,
`zipMembers` the archive's member names with their bytes (consulted only in
the zip branch).  Guards are tested in source order: `ext == "zip"`, then
`ext == "tif"`, then any other `Some`, then `None`. -/
def loadTifContents (ext : Option String) (fileBytes : List ℕ)
    (zipMembers : List (String × List ℕ)) : Except String (List ℕ) :=
  match ext with
  | some e =>
      if e = "zip" then
        match (zipMembers.map Prod.fst).filter isRasterName with
        | [] => Except.error "No tif files found archive"
        | [tifName] =>
            match zipMembers.lookup tifName with
            | some bytes => Except.ok bytes
            | none => Except.error "member vanished"
        | _ => Except.error "Multiple tif files found in archive"
      else if e = "tif" then Except.ok fileBytes
      else Except.error ("Unexpected file extension " ++ e)
  | none => Except.error "No file extension"

/-- The body of `main` (main.rs:24-32): `inputs.map(process_one).collect::<Result<Vec<_>>>()`.
`collect` into `Result` short-circuits at the first `Err`. -/
def runFiles {α : Type} (processFile : α → Except String PUnit) :
    List α → Except String (List PUnit)
  | [] => Except.ok []
  | f :: rest =>
      match processFile f with
      | .ok u =>
          match runFiles processFile rest with
          | .ok us => Except.ok (u :: us)
          | .error e => Except.error e
      | .error e => Except.error e

/-- The inputs on which `process_one` is actually invoked by `main`: because
the `map` iterator is lazy and `collect::<Result<_>>` stops consuming at the
first `Err`, files after the first failing one are never attempted. -/
def attemptedFiles {α : Type} (processFile : α → Except String PUnit) :
    List α → List α
  | [] => []
  | f :: rest =>
      match processFile f with
      | .ok _ => f :: attemptedFiles processFile rest
      | .error _ => [f]

/-! ## Helper lemmas -/

theorem length_filter_split {α : Type} (f : α → Bool) (l : List α) :
    (l.filter f).length + (l.filter (fun a => ! f a)).length = l.length := by
  induction l with
  | nil => simp
  | cons a t ih => by_cases h : f a <;> simp [List.filter_cons, h, ← ih] <;> omega

theorem runFiles_isOk {α : Type} (processFile : α → Except String PUnit)
    (inputs : List α) :
    resultIsOk (runFiles processFile inputs)
      = inputs.all (fun g => resultIsOk (processFile g)) := by
  induction inputs with
  | nil => rfl
  | cons x rest ih =>
      simp only [runFiles, List.all_cons, ← ih]
      cases hx : processFile x with
      | error e => simp [resultIsOk]
      | ok u =>
          cases hr : runFiles processFile rest with
          | error e => simp [resultIsOk]
          | ok us => simp [resultIsOk]

theorem attemptedFiles_fail_fast {α : Type} (processFile : α → Except String PUnit)
    (f : α) (post : List α) (hf : resultIsOk (processFile f) = false) :
    ∀ pre : List α, (∀ g ∈ pre, resultIsOk (processFile g) = true) →
      attemptedFiles processFile (pre ++ f :: post) = pre ++ [f]
  | [], _ => by
      cases hx : processFile f with
      | ok u => rw [hx] at hf; simp [resultIsOk] at hf
      | error e => simp [attemptedFiles, hx]
  | g :: gs, hpre => by
      have hg := hpre g (by simp)
      cases hx : processFile g with
      | error e => rw [hx] at hg; simp [resultIsOk] at hg
      | ok u =>
          simp only [List.cons_append, attemptedFiles, hx, List.append_eq]
          rw [attemptedFiles_fail_fast processFile f post hf gs
              (fun g' hg' => hpre g' (by simp [hg']))]

/-! ## Claims -/

/-- Claim C8: under the default predicate, a pixel sample is retained iff its
value is strictly greater than zero, and the number of retained pixels plus
the number of dropped pixels equals `width * height`. -/
theorem C8_default_filter (width height : ℕ) (pixels : List ℤ)
    (hlen : pixels.length = width * height) :
    (∀ v : ℤ, keepPixel v = true ↔ 0 < v) ∧
    (ungroupedData width height pixels).length +
        (pixels.enum.filter (fun p => ! keepPixel p.2)).length
      = width * height := by
  constructor
  · intro v; simp [keepPixel]
  · have h1 : (ungroupedData width height pixels).length
        = (pixels.enum.filter (fun p => keepPixel p.2)).length := by
      simp [ungroupedData]
    have h2 := length_filter_split (fun p => keepPixel p.2) pixels.enum
    have h3 : pixels.enum.length = pixels.length := List.enum_length
    omega

theorem C8_default_filter_witness :
    (([1, -1, 2, 0] : List ℤ).length = 2 * 2) ∧
    ((∀ v : ℤ, keepPixel v = true ↔ 0 < v) ∧
      (ungroupedData 2 2 [1, -1, 2, 0]).length +
          (([1, -1, 2, 0] : List ℤ).enum.filter (fun p => ! keepPixel p.2)).length
        = 2 * 2) :=
  ⟨by decide, C8_default_filter 2 2 [1, -1, 2, 0] (by decide)⟩

/-- Claim C9: `lerp` equals the stated affine formula, is linear and monotone
in `v` (strictly increasing for the longitude instance, strictly decreasing
for the latitude instance), and is exact at the projection domain endpoints:
`0 ↦ -180`, `width ↦ 180`, `0 ↦ 85`, `height ↦ -85`. -/
theorem C9_lerp_properties (w h a b t : ℚ) (hw : 0 < w) (hh : 0 < h)
    (hab : a < b) :
    (∀ v d0 d1 r0 r1 : ℚ,
        lerp v (d0, d1) (r0, r1) = (v - d0) / (d1 - d0) * (r1 - r0) + r0) ∧
    lerp (a + t * (b - a)) (0, w) (-180, 180)
      = lerp a (0, w) (-180, 180)
          + t * (lerp b (0, w) (-180, 180) - lerp a (0, w) (-180, 180)) ∧
    lerp a (0, w) (-180, 180) < lerp b (0, w) (-180, 180) ∧
    lerp b (0, h) (85, -85) < lerp a (0, h) (85, -85) ∧
    lerp 0 (0, w) (-180, 180) = -180 ∧
    lerp w (0, w) (-180, 180) = 180 ∧
    lerp 0 (0, h) (85, -85) = 85 ∧
    lerp h (0, h) (85, -85) = -85 := by
  have hw0 : w ≠ 0 := ne_of_gt hw
  have hh0 : h ≠ 0 := ne_of_gt hh
  have hpos : 0 < b - a := sub_pos.mpr hab
  have hdlon : lerp b (0, w) (-180, 180) - lerp a (0, w) (-180, 180)
      = (b - a) / w * 360 := by
    simp only [lerp]; ring
  have hdlat : lerp a (0, h) (85, -85) - lerp b (0, h) (85, -85)
      = (b - a) / h * 170 := by
    simp only [lerp]; ring
  refine ⟨fun v d0 d1 r0 r1 => rfl, ?_, ?_, ?_, ?_, ?_, ?_, ?_⟩
  · simp only [lerp]; field_simp; ring
  · linarith [hdlon, div_pos hpos hw]
  · linarith [hdlat, div_pos hpos hh]
  · norm_num [lerp]
  · simp only [lerp, sub_zero]; rw [div_self hw0]; norm_num
  · norm_num [lerp]
  · simp only [lerp, sub_zero]; rw [div_self hh0]; norm_num

theorem C9_lerp_properties_witness :
    ((0 : ℚ) < 4 ∧ (0 : ℚ) < 2 ∧ (1 : ℚ) < 3) ∧
    ((∀ v d0 d1 r0 r1 : ℚ,
        lerp v (d0, d1) (r0, r1) = (v - d0) / (d1 - d0) * (r1 - r0) + r0) ∧
      lerp (1 + 1 / 2 * (3 - 1)) (0, 4) (-180, 180)
        = lerp 1 (0, 4) (-180, 180)
            + 1 / 2 * (lerp 3 (0, 4) (-180, 180) - lerp 1 (0, 4) (-180, 180)) ∧
      lerp 1 (0, 4) (-180, 180) < lerp 3 (0, 4) (-180, 180) ∧
      lerp 3 (0, 2) (85, -85) < lerp 1 (0, 2) (85, -85) ∧
      lerp 0 (0, 4) (-180, 180) = -180 ∧
      lerp 4 (0, 4) (-180, 180) = 180 ∧
      lerp 0 (0, 2) (85, -85) = 85 ∧
      lerp 2 (0, 2) (85, -85) = -85) :=
  ⟨⟨by norm_num, by norm_num, by norm_num⟩,
   C9_lerp_properties 4 2 1 3 (1 / 2) (by norm_num) (by norm_num) (by norm_num)⟩

/-- Claim C10: extension matching is exact and case-sensitive: only the exact
lowercase extension `tif` selects the plain-file branch and only `zip` the
archive branch; any other extension (including `TIF`, `Tif`, `ZIP`) fails with
the unsupported-extension error, and zip member selection matches only names
ending in lowercase `.tif` or `.tiff`. -/
theorem C10_case_sensitive_extensions (e : String) (fileBytes : List ℕ)
    (zipMembers : List (String × List ℕ))
    (hTif : e ≠ "tif") (hZip : e ≠ "zip") :
    loadTifContents (some e) fileBytes zipMembers
      = Except.error ("Unexpected file extension " ++ e) ∧
    loadTifContents (some "tif") fileBytes zipMembers = Except.ok fileBytes ∧
    (∀ n : String, isRasterName n
        = (strEndsWith n ".tif" || strEndsWith n ".tiff")) ∧
    isRasterName "a.TIF" = false ∧ isRasterName "a.Tif" = false ∧
    isRasterName "a.TIFF" = false ∧ isRasterName "a.tif" = true ∧
    isRasterName "a.tiff" = true := by
  refine ⟨?_, ?_, fun n => rfl, by decide, by decide, by decide, by decide,
    by decide⟩
  · simp [loadTifContents, hZip, hTif]
  · simp [loadTifContents]

theorem C10_case_sensitive_extensions_witness :
    (("TIF" : String) ≠ "tif" ∧ ("TIF" : String) ≠ "zip") ∧
    (loadTifContents (some "TIF") [7] []
        = Except.error ("Unexpected file extension " ++ "TIF") ∧
      loadTifContents (some "tif") [7] [] = Except.ok [7] ∧
      (∀ n : String, isRasterName n
          = (strEndsWith n ".tif" || strEndsWith n ".tiff")) ∧
      isRasterName "a.TIF" = false ∧ isRasterName "a.Tif" = false ∧
      isRasterName "a.TIFF" = false ∧ isRasterName "a.tif" = true ∧
      isRasterName "a.tiff" = true) :=
  ⟨⟨by decide, by decide⟩,
   C10_case_sensitive_extensions "TIF" [7] [] (by decide) (by decide)⟩

/-- Claim C6 counterexample: a plain file whose extension is `tiff` is
rejected with the unsupported-extension error rather than read: the loader's
plain-raster branch matches only the extension `tif`. -/
theorem C6_counterexample :
    loadTifContents (some "tiff") [7] []
      = Except.error "Unexpected file extension tiff" ∧
    resultIsOk (loadTifContents (some "tiff") [7] []) = false := by
  constructor <;> rfl

/-- Claim C6 (amended): only a path with the exact extension `tif` is read
whole as a plain raster file; a plain file with extension `tiff` fails with
the unsupported-extension error (`.tiff` names are only recognised inside zip
archives). -/
theorem C6_plain_extension_tif_only (fileBytes : List ℕ)
    (zipMembers : List (String × List ℕ)) :
    loadTifContents (some "tif") fileBytes zipMembers = Except.ok fileBytes ∧
    loadTifContents (some "tiff") fileBytes zipMembers
      = Except.error "Unexpected file extension tiff" := by
  constructor <;> rfl

/-- Claim C7 counterexample: with two inputs where the first fails, the
second is never attempted (`collect::<Result<_>>` short-circuits), so one
file's failure does prevent attempting the others. -/
theorem C7_counterexample :
    attemptedFiles id [Except.error "boom", Except.ok PUnit.unit]
      = [Except.error "boom"] ∧
    resultIsOk (runFiles id [Except.error "boom", Except.ok PUnit.unit])
      = false := by
  constructor <;> rfl

/-- Claim C7 (amended): inputs are processed sequentially and fail-fast: the
overall run succeeds iff every file's processing succeeds, and processing
stops at the first failing file — files after it are never attempted. -/
theorem C7_fail_fast_isolation {α : Type}
    (processFile : α → Except String PUnit) (inputs pre post : List α) (f : α)
    (hpre : ∀ g ∈ pre, resultIsOk (processFile g) = true)
    (hf : resultIsOk (processFile f) = false) :
    (resultIsOk (runFiles processFile inputs) = true
      ↔ ∀ g ∈ inputs, resultIsOk (processFile g) = true) ∧
    attemptedFiles processFile (pre ++ f :: post) = pre ++ [f] := by
  refine ⟨?_, attemptedFiles_fail_fast processFile f post hf pre hpre⟩
  rw [runFiles_isOk]
  simp [List.all_eq_true]

theorem C7_fail_fast_isolation_witness :
    ((∀ g ∈ ([Except.ok PUnit.unit] : List (Except String PUnit)),
        resultIsOk (id g) = true) ∧
      resultIsOk (id (Except.error "x" : Except String PUnit)) = false) ∧
    ((resultIsOk (runFiles id [Except.ok PUnit.unit]) = true
        ↔ ∀ g ∈ ([Except.ok PUnit.unit] : List (Except String PUnit)),
            resultIsOk (id g) = true) ∧
      attemptedFiles id
          ([Except.ok PUnit.unit] ++
            (Except.error "x" : Except String PUnit) :: [Except.ok PUnit.unit])
        = [Except.ok PUnit.unit] ++ [Except.error "x"]) :=
  ⟨⟨by decide, by decide⟩,
   C7_fail_fast_isolation id [Except.ok PUnit.unit] [Except.ok PUnit.unit]
     [Except.ok PUnit.unit] (Except.error "x") (by decide) (by decide)⟩

/-- Claim C5 counterexample: on the ungrouped path the `value` column is
built as a `Float32Array` like the others, not as a 32-bit integer column. -/
theorem C5_counterexample :
    (outputSchema false).lookup "value" = some ArrowType.float32 ∧
    some ArrowType.float32 ≠ some ArrowType.int32 := by
  constructor <;> decide

/-- Claim C5 (amended): all three columns — `lon`, `lat` and `value` — are
single-precision floating point on both the grouped and the ungrouped path;
the schema does not follow the aggregation policy. -/
theorem C5_schema_always_float32 (grouped : Bool) :
    (outputSchema grouped).lookup "lon" = some ArrowType.float32 ∧
    (outputSchema grouped).lookup "lat" = some ArrowType.float32 ∧
    (outputSchema grouped).lookup "value" = some ArrowType.float32 ∧
    outputSchema grouped = outputSchema (! grouped) := by
  cases grouped <;> exact ⟨by decide, by decide, by decide, by decide⟩

/-- Claim C4 counterexample: a non-positive bin size is accepted: with
`group = -1` the conversion succeeds and produces a table — there is no
`InvalidGroupSize` failure anywhere in the code. -/
theorem C4_counterexample :
    ((-1 : ℚ) ≤ 0) ∧
    resultIsOk (processOne (DecodingResult.I32 [1]) 1 1 (some (-1)) [])
      = true :=
  ⟨by norm_num, rfl⟩

/-- Claim C4 (amended): the bin size is never validated: for every supplied
`group` (positive or not) the conversion of an `I32` raster proceeds and
succeeds, and success of the conversion depends only on the decoded pixel
type, never on the bin size. -/
theorem C4_no_group_validation (image : DecodingResult) (width height : ℕ)
    (g : ℚ) (hashOrder : List (ℤ × ℤ)) :
    resultIsOk (processOne image width height (some g) hashOrder)
      = isI32 image ∧
    resultIsOk (processOne image width height none hashOrder)
      = isI32 image := by
  cases image <;> exact ⟨rfl, rfl⟩

/-- Claim C1 counterexample: for a 1×1 raster with the single (surviving)
pixel value 1, the output table's `lon` column holds `85` — the latitude
`lerp(0, [0,1) → [85,-85])` — not the longitude `-180` the claim requires:
the column construction swaps the two coordinates. -/
theorem C1_counterexample :
    (processOne (DecodingResult.I32 [1]) 1 1 none []).toOption.map Table.lon
      = some [(85 : ℚ)] ∧
    ((85 : ℚ)) ≠ -180 := by
  constructor
  · simp [processOne, ungroupedData, buildTable, keepPixel, lerp,
      List.enum, List.enumFrom, Except.toOption]
  · norm_num

/-- Claim C1 (amended): without grouping, each surviving pixel at grid
position `(x, y)` produces exactly one output row, but with the axes
mislabelled: the table's `lon` column holds the latitude
`lerp(y, [0,height) → [85,-85])`, the `lat` column holds the longitude
`lerp(x, [0,width) → [-180,180])`, and the `value` column the pixel value;
all three columns have one row per surviving pixel, so row `i` of the three
columns still describes one point. -/
theorem C1_columns_swapped (width height : ℕ) (pixels : List ℤ)
    (hashOrder : List (ℤ × ℤ)) :
    (processOne (DecodingResult.I32 pixels) width height none
        hashOrder).toOption.map Table.lon
      = some ((survivors pixels).map fun p =>
          lerp ((p.1 / width : ℕ) : ℚ) (0, (height : ℚ)) (85, -85)) ∧
    (processOne (DecodingResult.I32 pixels) width height none
        hashOrder).toOption.map Table.lat
      = some ((survivors pixels).map fun p =>
          lerp ((p.1 % width : ℕ) : ℚ) (0, (width : ℚ)) (-180, 180)) ∧
    (processOne (DecodingResult.I32 pixels) width height none
        hashOrder).toOption.map Table.value
      = some ((survivors pixels).map fun p => ((p.2 : ℚ) : ℝ)) := by
  refine ⟨?_, ?_, ?_⟩ <;>
    simp [processOne, ungroupedData, buildTable, survivors, Except.toOption,
      List.map_map, Function.comp]

/-! ## Grouping machinery -/

theorem cellSum_nil {V : Type} [AddCommMonoid V] :
    cellSum ([] : CellMap V) = 0 := rfl

theorem cellSum_cons {V : Type} [AddCommMonoid V] (k : ℤ × ℤ)
    (v : ℚ × ℚ × V) (m : CellMap V) :
    cellSum ((k, v) :: m) = v.2.2 + cellSum m := by
  simp [cellSum]

theorem addToCell_keys {V : Type} [Add V] [Zero V] (k : ℤ × ℤ)
    (anchor : ℚ × ℚ) (contrib : V) (m : CellMap V) :
    (addToCell k anchor contrib m).map Prod.fst
      = if k ∈ m.map Prod.fst then m.map Prod.fst
        else m.map Prod.fst ++ [k] := by
  induction m with
  | nil => simp [addToCell]
  | cons e rest ih =>
      obtain ⟨k', v⟩ := e
      by_cases hk : k' = k
      · subst hk
        simp [addToCell]
      · simp only [addToCell, if_neg hk, List.map_cons, ih]
        by_cases hmem : k ∈ rest.map Prod.fst
        · simp [hmem, Ne.symm hk]
        · simp [hmem, Ne.symm hk]

theorem addToCell_nodup {V : Type} [Add V] [Zero V] (k : ℤ × ℤ)
    (anchor : ℚ × ℚ) (contrib : V) (m : CellMap V)
    (h : (m.map Prod.fst).Nodup) :
    ((addToCell k anchor contrib m).map Prod.fst).Nodup := by
  rw [addToCell_keys]
  by_cases hmem : k ∈ m.map Prod.fst
  · simpa [hmem] using h
  · rw [if_neg hmem]
    refine List.Nodup.append h (List.nodup_singleton k) ?_
    intro a ha hak
    rw [List.mem_singleton] at hak
    subst hak
    exact hmem ha

theorem groupFold_keys_nodup {V : Type} [Add V] [Zero V]
    (c : ℚ × ℚ × ℚ → V) (g : ℚ) (data : List (ℚ × ℚ × ℚ)) :
    ((groupFold c g data).map Prod.fst).Nodup := by
  suffices h : ∀ m : CellMap V, (m.map Prod.fst).Nodup →
      ((data.foldl (groupStep c g) m).map Prod.fst).Nodup from h [] (by simp)
  induction data with
  | nil => intro m hm; simpa using hm
  | cons o rest ih =>
      intro m hm
      simp only [List.foldl_cons]
      exact ih _ (addToCell_nodup _ _ _ _ hm)

theorem lookupKey_cons_self {V : Type} (k : ℤ × ℤ) (v : ℚ × ℚ × V)
    (rest : CellMap V) : lookupKey k ((k, v) :: rest) = some v := by
  simp [lookupKey]

theorem lookupKey_cons_ne {V : Type} (k k' : ℤ × ℤ) (v : ℚ × ℚ × V)
    (rest : CellMap V) (h : k' ≠ k) :
    lookupKey k ((k', v) :: rest) = lookupKey k rest := by
  simp [lookupKey, h]

theorem filterMap_lookupKey_self {V : Type} (m : CellMap V)
    (h : (m.map Prod.fst).Nodup) :
    (m.map Prod.fst).filterMap (fun k => lookupKey k m) = m.map Prod.snd := by
  induction m with
  | nil => simp
  | cons e rest ih =>
      obtain ⟨k, v⟩ := e
      simp only [List.map_cons, List.nodup_cons] at h
      obtain ⟨hk, hrest⟩ := h
      simp only [List.map_cons, List.filterMap_cons, lookupKey_cons_self]
      have hcongr : (rest.map Prod.fst).filterMap
            (fun a => lookupKey a ((k, v) :: rest))
          = (rest.map Prod.fst).filterMap (fun a => lookupKey a rest) :=
        List.filterMap_congr
          (fun a ha => lookupKey_cons_ne a k v rest (fun hka => hk (hka ▸ ha)))
      rw [hcongr, ih hrest]

theorem addToCell_cellSum {V : Type} [AddCommMonoid V] (k : ℤ × ℤ)
    (anchor : ℚ × ℚ) (contrib : V) (m : CellMap V) :
    cellSum (addToCell k anchor contrib m) = cellSum m + contrib := by
  induction m with
  | nil => simp [addToCell, cellSum]
  | cons e rest ih =>
      obtain ⟨k', v⟩ := e
      by_cases hk : k' = k
      · subst hk
        simp [addToCell, cellSum_cons]
        abel
      · simp only [addToCell, if_neg hk, cellSum_cons, ih]
        rw [add_assoc]

theorem groupStep_cellSum {V : Type} [AddCommMonoid V] (c : ℚ × ℚ × ℚ → V)
    (g : ℚ) (m : CellMap V) (o : ℚ × ℚ × ℚ) :
    cellSum (groupStep c g m o) = cellSum m + c o :=
  addToCell_cellSum _ _ _ _

theorem groupFold_cellSum {V : Type} [AddCommMonoid V]
    (c : ℚ × ℚ × ℚ → V) (g : ℚ) (data : List (ℚ × ℚ × ℚ)) :
    cellSum (groupFold c g data) = (data.map c).sum := by
  suffices h : ∀ m : CellMap V,
      cellSum (data.foldl (groupStep c g) m) = cellSum m + (data.map c).sum by
    simpa [cellSum] using h []
  induction data with
  | nil => intro m; simp
  | cons o rest ih =>
      intro m
      simp only [List.foldl_cons, List.map_cons, List.sum_cons]
      rw [ih, groupStep_cellSum]
      rw [add_assoc]

/-- Claim C2 counterexample: the aggregator has no unweighted-sum policy: the
single filtered observation `(lon 0, lat 60, value 2)` with bin size `1`
produces one cell whose value is `2 · cos 60° = 1`, not `2` — the sum of
output cell values differs from the sum of filtered input values. -/
theorem C2_counterexample :
    ([((0 : ℤ), (60 : ℤ))]).Perm
        ((groupData 1 [((0 : ℚ), 60, 2)]).map Prod.fst) ∧
    sumValues (reorder [((0 : ℤ), (60 : ℤ))] (groupData 1 [((0 : ℚ), 60, 2)]))
      = 1 ∧
    sumValues ([((0 : ℚ), 60, 2)].map fun r => (r.1, r.2.1, (r.2.2 : ℝ)))
      = 2 ∧
    (1 : ℝ) ≠ 2 := by
  have hc : codeContribution ((0 : ℚ), 60, 2) = 1 := by
    simp only [codeContribution]
    have h60 : (((60 : ℚ) : ℝ)) * (Real.pi / 180) = Real.pi / 3 := by
      push_cast
      ring
    rw [h60, Real.cos_pi_div_three]
    norm_num
  have hm : groupData 1 [((0 : ℚ), 60, 2)]
      = [(((0 : ℤ), (60 : ℤ)),
          ((0 : ℚ), (60 : ℚ), codeContribution ((0 : ℚ), 60, 2)))] := by
    simp [groupData, groupFold, groupStep, addToCell]
  refine ⟨?_, ?_, ?_, by norm_num⟩
  · rw [hm]
    exact List.Perm.refl _
  · rw [hm, hc]
    simp [reorder, lookupKey, sumValues]
  · simp [sumValues]

/-- Claim C2 (amended): the aggregator implements only the latitude-weighted
sum: for every bin size and every hash iteration order that enumerates the
stored keys, the sum of all output cell values equals the sum of
`value · cos(radians(latitude))` over the filtered input observations (the
weighted contributions are conserved; raw values are not). -/
theorem C2_weighted_conservation (g : ℚ) (data : List (ℚ × ℚ × ℚ))
    (order : List (ℤ × ℤ))
    (horder : order.Perm ((groupData g data).map Prod.fst)) :
    sumValues (reorder order (groupData g data))
      = (data.map codeContribution).sum := by
  have hnodup : ((groupData g data).map Prod.fst).Nodup :=
    groupFold_keys_nodup codeContribution g data
  have hperm : (reorder order (groupData g data)).Perm
      ((groupData g data).map Prod.snd) := by
    have h1 := horder.filterMap (fun k => lookupKey k (groupData g data))
    rw [filterMap_lookupKey_self (groupData g data) hnodup] at h1
    exact h1
  have h2 := List.Perm.sum_eq (hperm.map (fun r => r.2.2))
  have h3 : sumValues ((groupData g data).map Prod.snd)
      = cellSum (groupData g data) := by
    simp only [sumValues, cellSum, List.map_map]
    rfl
  calc sumValues (reorder order (groupData g data))
      = sumValues ((groupData g data).map Prod.snd) := h2
    _ = cellSum (groupData g data) := h3
    _ = (data.map codeContribution).sum := groupFold_cellSum _ _ _

theorem C2_weighted_conservation_witness :
    (([] : List (ℤ × ℤ)).Perm ((groupData 1 []).map Prod.fst)) ∧
    sumValues (reorder [] (groupData 1 []))
      = (([] : List (ℚ × ℚ × ℚ)).map codeContribution).sum :=
  ⟨List.Perm.nil, C2_weighted_conservation 1 [] [] List.Perm.nil⟩

/-- Claim C3 counterexample: the grouped row order is not stable across runs:
for the 1×2 all-ones raster with bin size 1, both cell orders are
permutations of the stored keys (so both can occur, depending on the per-run
hash seed), and they produce different output tables — same rows, different
row order. -/
theorem C3_counterexample :
    ([((-180 : ℤ), (85 : ℤ)), ((-180 : ℤ), (0 : ℤ))]).Perm
        ((groupData 1 (ungroupedData 1 2 [1, 1])).map Prod.fst) ∧
    ([((-180 : ℤ), (0 : ℤ)), ((-180 : ℤ), (85 : ℤ))]).Perm
        ((groupData 1 (ungroupedData 1 2 [1, 1])).map Prod.fst) ∧
    (processOne (DecodingResult.I32 [1, 1]) 1 2 (some 1)
        [((-180 : ℤ), (85 : ℤ)), ((-180 : ℤ), (0 : ℤ))]).toOption.map Table.lon
      = some [(85 : ℚ), 0] ∧
    (processOne (DecodingResult.I32 [1, 1]) 1 2 (some 1)
        [((-180 : ℤ), (0 : ℤ)), ((-180 : ℤ), (85 : ℤ))]).toOption.map Table.lon
      = some [(0 : ℚ), 85] ∧
    ([(85 : ℚ), 0] ≠ [(0 : ℚ), 85]) := by
  have hdata : ungroupedData 1 2 [1, 1]
      = [((-180 : ℚ), 85, 1), ((-180 : ℚ), 0, 1)] := by
    simp [ungroupedData, keepPixel, lerp, List.enum, List.enumFrom]
    norm_num
  have hm : groupData 1 [((-180 : ℚ), 85, 1), ((-180 : ℚ), 0, 1)]
      = [(((-180 : ℤ), (85 : ℤ)),
          ((-180 : ℚ), (85 : ℚ), codeContribution ((-180 : ℚ), 85, 1))),
         (((-180 : ℤ), (0 : ℤ)),
          ((-180 : ℚ), (0 : ℚ), codeContribution ((-180 : ℚ), 0, 1)))] := by
    simp [groupData, groupFold, groupStep, addToCell]
    norm_num
  refine ⟨?_, ?_, ?_, ?_, ?_⟩
  · rw [hdata, hm]
    exact List.Perm.refl _
  · rw [hdata, hm]
    exact List.Perm.swap _ _ _
  · simp [processOne, hdata, hm, reorder, lookupKey, buildTable,
      Except.toOption]
  · simp [processOne, hdata, hm, reorder, lookupKey, buildTable,
      Except.toOption]
  · simp

/-- Claim C3 (amended): the pipeline is deterministic up to grouped row
order: the ungrouped path yields identical output for any two runs, and on
the grouped path any two hash iteration orders (both enumerating the stored
keys, as in any two runs on the same input) yield row sequences that are
permutations of each other — the same multiset of rows, but not necessarily
the same row order. -/
theorem C3_deterministic_up_to_row_order (pixels : List ℤ)
    (width height : ℕ) (g : ℚ) (o1 o2 : List (ℤ × ℤ))
    (h1 : o1.Perm
      ((groupData g (ungroupedData width height pixels)).map Prod.fst))
    (h2 : o2.Perm
      ((groupData g (ungroupedData width height pixels)).map Prod.fst)) :
    (reorder o1 (groupData g (ungroupedData width height pixels))).Perm
      (reorder o2 (groupData g (ungroupedData width height pixels))) ∧
    processOne (DecodingResult.I32 pixels) width height none o1
      = processOne (DecodingResult.I32 pixels) width height none o2 :=
  ⟨(h1.trans h2.symm).filterMap _, rfl⟩

theorem C3_deterministic_up_to_row_order_witness :
    (([] : List (ℤ × ℤ)).Perm
        ((groupData 1 (ungroupedData 0 0 [])).map Prod.fst)) ∧
    ((reorder [] (groupData 1 (ungroupedData 0 0 []))).Perm
        (reorder [] (groupData 1 (ungroupedData 0 0 []))) ∧
      processOne (DecodingResult.I32 []) 0 0 none []
        = processOne (DecodingResult.I32 []) 0 0 none []) :=
  ⟨List.Perm.nil,
   C3_deterministic_up_to_row_order [] 0 0 1 [] [] List.Perm.nil
     List.Perm.nil⟩

end Geotif
